import Mathlib

/-
  Verification development for the quorum node core.

  Shallow embedding of:
  - src/pkg/consensus/def/consensus.go   (the Consensus interface)
  - src/unnamed/part_000                 (the PSyncer interface)
  - src/internal/pkg/handlers/backup.go  (GetKeystorePassword, saveLocalSeedsToAppdata,
                                          mainRet startup/shutdown sequence, SetAutoAck)
  together with models, written from the natural-language specification, of the
  consensus engine, group manager and publish queue whose implementations are not
  part of the given sources (only their interfaces and call sites are).
-/

set_option linter.unusedVariables false

namespace Quorum

/-! ## Embedding of src/pkg/consensus/def/consensus.go

The Go `Consensus` interface holds a Producer and a User role object with
getter/setter methods.  It is embedded as a record parameterised by the role
object types, with the setters storing the supplied value and the getters
returning the stored value, which is the contract an interface with
`SetProducer`/`SetUser`/`Producer()`/`User()` methods expresses. -/

structure Consensus (ProducerT UserT : Type) where
  name : String
  producer : ProducerT
  user : UserT
deriving DecidableEq

def Consensus.Name (c : Consensus P U) : String := c.name

def Consensus.Producer (c : Consensus P U) : P := c.producer

def Consensus.User (c : Consensus P U) : U := c.user

def Consensus.SetProducer (c : Consensus P U) (p : P) : Consensus P U :=
  { c with producer := p }

def Consensus.SetUser (c : Consensus P U) (u : U) : Consensus P U :=
  { c with user := u }

/-- Modelled from the spec: §4.3 says the producer role a node holds for a group
is a pure function of (local identity, current producer set) — a node may
originate proposals exactly when it is a member of the group's producer set.
The implementation of role evaluation is not among the given sources. -/
def derivedIsProducer (localId : Nat) (producerSet : List Nat) : Bool :=
  producerSet.contains localId

/-! ## Model of the consensus engine ("PSyncer")

Modelled from the spec: the implementation behind the `PSyncer` interface of
src/unnamed/part_000 is not among the given sources; the state machine below is
written from spec §3 (ConsensusRound, HBMsg) and §4.2 (HandleHBMsg phase
handling, tie-break rule, quorum rule). -/

inductive MsgPhase
  | propose
  | vote
  | commitNotify
  | timeoutNotify
deriving DecidableEq

/-- Modelled from the spec: the signed protocol envelope ("HBMsg") of §3:
groupId, senderId, height, phase tag, payload, signature.  Signature
verification and well-formedness checking are external ports; their outcomes on
this message are carried as the booleans `wellFormed` and `sigValid`.
`prevHash` is the candidate block's reference to the previous committed block,
validated on PROPOSE. -/
structure HBMsgv1 where
  groupId : Nat
  senderId : Nat
  height : Nat
  phase : MsgPhase
  payload : Nat
  prevHash : Nat
  wellFormed : Bool
  sigValid : Bool
deriving DecidableEq

inductive RoundPhase
  | idle
  | proposing
  | voting
  | committing
  | recovering
deriving DecidableEq

/-- Modelled from the spec: per-group mutable round state of §3 — the height
being agreed on, the phase, the candidate proposal, and the set of received
votes keyed by sender identity (kept duplicate-free by `addVote`). -/
structure ConsensusRound where
  height : Nat
  phase : RoundPhase
  proposal : Option Nat
  votes : List Nat
deriving DecidableEq

/-- Modelled from the spec: one group's engine state — the ordered producer
set, the persisted chain of committed blocks (index = height, per the
append-only Storage Port of §6), the active round, and the buffer of
future-height messages (§4.2: buffered, not dropped). -/
structure PSyncerState where
  producers : List Nat
  chain : List Nat
  round : ConsensusRound
  buffered : List HBMsgv1
deriving DecidableEq

inductive ConsensusErr
  | validationFault
  | proposerFault
deriving DecidableEq

inductive HBResult
  | accepted
  | ignored
  | buffered
  | rejected (e : ConsensusErr)
deriving DecidableEq

def committedHeight (st : PSyncerState) : Nat := st.chain.length

def chainHash (chain : List Nat) : Nat :=
  chain.foldl (fun acc b => acc * 31 + b + 1) 7

/-- Modelled from the spec: §4.2 producer-rotation rule — the eligible proposer
for a height is a deterministic function of height and producer-set order,
round-robin by index (height mod number of producers). -/
def eligibleProposer (producers : List Nat) (height : Nat) : Option Nat :=
  producers[height % producers.length]?

/-- Modelled from the spec: §3 — a protocol message is admitted only if it is
well formed, its sender is a member of the current producer set, and its
signature verifies. -/
def verifyHBMsg (producers : List Nat) (m : HBMsgv1) : Bool :=
  m.wellFormed && producers.contains m.senderId && m.sigValid

/-- Modelled from the spec: §3 — the vote set is keyed by sender identity and
deduplicated; a sender's second vote for the same round is ignored. -/
def addVote (votes : List Nat) (sender : Nat) : List Nat :=
  if sender ∈ votes then votes else votes ++ [sender]

/-- Modelled from the spec: §4.2 — quorum is strictly more than two-thirds of
the producer set (votes > 2n/3, i.e. 2n < 3·votes). -/
def quorumReached (producers votes : List Nat) : Bool :=
  producers.length * 2 < votes.length * 3

/-- Modelled from the spec: §4.2 — messages for future heights are buffered,
not dropped.  Buffering is keyed by the whole message, so re-delivery of an
identical message does not grow the buffer. -/
def bufferMsg (st : PSyncerState) (m : HBMsgv1) : PSyncerState :=
  if m ∈ st.buffered then st else { st with buffered := st.buffered ++ [m] }

/-- Modelled from the spec: §4.2 PROPOSE handling and the tie-break rule — a
PROPOSE is accepted only from the deterministically-eligible proposer for the
height; any other claimant is rejected as a fault.  An eligible PROPOSE
received in IDLE whose candidate validates against the previously committed
chain moves the round to VOTING. -/
def handlePropose (st : PSyncerState) (m : HBMsgv1) : PSyncerState × HBResult :=
  if eligibleProposer st.producers m.height = some m.senderId then
    if st.round.phase = RoundPhase.idle ∧ m.prevHash = chainHash st.chain then
      ({ st with round := { st.round with phase := RoundPhase.voting,
                                          proposal := some m.payload } },
        HBResult.accepted)
    else (st, HBResult.ignored)
  else (st, HBResult.rejected ConsensusErr.proposerFault)

/-- Modelled from the spec: §4.2 VOTE handling — in PROPOSING or VOTING the
vote is accumulated (deduplicated by sender); on reaching quorum the engine
commits: the candidate block is appended to the persisted chain and a fresh
IDLE round for the next height replaces the current one. -/
def handleVote (st : PSyncerState) (m : HBMsgv1) : PSyncerState × HBResult :=
  if st.round.phase = RoundPhase.proposing ∨ st.round.phase = RoundPhase.voting then
    if quorumReached st.producers (addVote st.round.votes m.senderId) then
      match st.round.proposal with
      | some b =>
        ({ st with chain := st.chain ++ [b],
                   round := ⟨st.round.height + 1, RoundPhase.idle, none, []⟩ },
          HBResult.accepted)
      | none =>
        ({ st with round := { st.round with votes := addVote st.round.votes m.senderId } },
          HBResult.accepted)
    else
      ({ st with round := { st.round with votes := addVote st.round.votes m.senderId } },
        HBResult.accepted)
  else (st, HBResult.ignored)

/-- Modelled from the spec: §4.2 HandleHBMsg — the sole mutator of round state
from network input.  Verification failure returns an error value (the process
is not aborted) with the state unchanged; past heights are ignored, future
heights buffered; otherwise the message is dispatched by phase. -/
def handleHBMsg (st : PSyncerState) (m : HBMsgv1) : PSyncerState × HBResult :=
  if verifyHBMsg st.producers m then
    if m.height < st.round.height then (st, HBResult.ignored)
    else if st.round.height < m.height then (bufferMsg st m, HBResult.buffered)
    else
      match m.phase with
      | MsgPhase.propose => handlePropose st m
      | MsgPhase.vote => handleVote st m
      | MsgPhase.commitNotify => (st, HBResult.ignored)
      | MsgPhase.timeoutNotify =>
        ({ st with round := { st.round with phase := RoundPhase.recovering } },
          HBResult.accepted)
  else (st, HBResult.rejected ConsensusErr.validationFault)

/-! ## Model of the GroupManager

Modelled from the spec: the GroupManager implementation (LoadAllGroups,
StartSyncAllGroups, StopSyncAllGroups, TeardownAllGroups) is not among the
given sources — mainRet in src/internal/pkg/handlers/backup.go only calls it.
The model below follows spec §4.1 and §5; the call sequence and fatality
structure of `mainRetStartup` are embedded from mainRet itself. -/

inductive MgrErr
  | storageFault
deriving DecidableEq

/-- Modelled from the spec: one group's persisted metadata as read by
LoadAllGroups; `corrupt` records whether this group's metadata is corrupt. -/
structure GroupMeta where
  groupId : Nat
  highestHeight : Nat
  corrupt : Bool
deriving DecidableEq

structure GroupEntry where
  meta : GroupMeta
  started : Bool
  round : Option ConsensusRound
deriving DecidableEq

structure GroupMgr where
  groups : List GroupEntry
deriving DecidableEq

def loadGroupEntry (g : GroupMeta) : GroupEntry := ⟨g, false, none⟩

/-- Modelled from the spec: §4.1 LoadAllGroups — reads persisted group
metadata, constructs one (not yet started) entry per group; a group whose
metadata is corrupt is skipped, not fatal to the manager; it fails, with a
StorageFault, only when the metadata cannot be read at all (input `none`). -/
def loadAllGroups (metadata : Option (List GroupMeta)) : Except MgrErr GroupMgr :=
  match metadata with
  | none => Except.error MgrErr.storageFault
  | some metas =>
    Except.ok ⟨(metas.filter (fun g => !g.corrupt)).map loadGroupEntry⟩

/-- Modelled from the spec: §4.1 — starting an already-started group is a
no-op. -/
def startGroupEntry (e : GroupEntry) : GroupEntry :=
  if e.started then e else { e with started := true }

/-- Modelled from the spec: §4.1 and §5 — stopping a running group cancels the
in-flight round cleanly (in-memory round state discarded, no partial commit);
stopping an already-stopped group is a no-op. -/
def stopGroupEntry (e : GroupEntry) : GroupEntry :=
  if e.started then { e with started := false, round := none } else e

def mgrStartSyncAllGroups (m : GroupMgr) : GroupMgr :=
  ⟨m.groups.map startGroupEntry⟩

def mgrStopSyncAllGroups (m : GroupMgr) : GroupMgr :=
  ⟨m.groups.map stopGroupEntry⟩

/-- Modelled from the spec: the node's state split into the durable Storage
Port contents (per-group committed chains, keyed by group id) and the
in-memory group manager. -/
structure NodeState where
  storage : List (Nat × List Nat)
  mgr : GroupMgr
deriving DecidableEq

def persistedHeight (n : NodeState) (gid : Nat) : Option Nat :=
  (n.storage.lookup gid).map List.length

def nodeStopSyncAllGroups (n : NodeState) : NodeState :=
  { n with mgr := mgrStopSyncAllGroups n.mgr }

/-- Modelled from the spec: §4.1 TeardownAllGroups — stops all groups, then
releases in-memory state; persisted data is untouched. -/
def nodeTeardownAllGroups (n : NodeState) : NodeState :=
  { nodeStopSyncAllGroups n with mgr := ⟨[]⟩ }

/-- Embedded from mainRet in src/internal/pkg/handlers/backup.go: the outcome
of every startup step of the non-bootstrap path whose failure calls Fatalf, in
source order — options.InitNodeOptions, InitDefaultKeystore,
localcrypto.SignKeytoPeerKeys, ks.GetPeerInfo, dsbadger2.NewDatastore (the
peerstore db), storage.CreateDb (the chain db), connmgr.NewConnManager,
stats.InitDB, createPubQueueDb, the group-metadata read performed by
LoadAllGroups, StartSyncAllGroups, and appdata.CreateAppDb.  (p2p.NewNode's
error is not Fatalf on this path: mainRet only skips SetRumExchange on it.) -/
structure StartupEnv where
  nodeOptionsOk : Bool
  keystoreOk : Bool
  peerKeysOk : Bool
  peerInfoOk : Bool
  peerstoreDbOk : Bool
  dbOk : Bool
  connMgrOk : Bool
  statsDbOk : Bool
  pubQueueDbOk : Bool
  metadata : Option (List GroupMeta)
  startSyncOk : Bool
  appDbOk : Bool
deriving DecidableEq

/-- Embedded from mainRet in src/internal/pkg/handlers/backup.go (non-bootstrap
path): each Fatalf branch terminates the process (`none`), in the source's
order — node options, keystore, peer keys, peer info, peerstore db, chain db,
connection manager, stats db, publish-queue db, LoadAllGroups,
StartSyncAllGroups, and only then appdata.CreateAppDb. -/
def mainRetStartup (env : StartupEnv) : Option GroupMgr :=
  if env.nodeOptionsOk = false then none
  else if env.keystoreOk = false then none
  else if env.peerKeysOk = false then none
  else if env.peerInfoOk = false then none
  else if env.peerstoreDbOk = false then none
  else if env.dbOk = false then none
  else if env.connMgrOk = false then none
  else if env.statsDbOk = false then none
  else if env.pubQueueDbOk = false then none
  else
    match loadAllGroups env.metadata with
    | Except.error _ => none
    | Except.ok mgr =>
      if env.startSyncOk = false then none
      else if env.appDbOk = false then none
      else some (mgrStartSyncAllGroups mgr)

/-- Embedded from mainRet in src/internal/pkg/handlers/backup.go: the ordered
startup steps of the non-bootstrap path. -/
inductive StartupStep
  | createDb
  | newNode
  | bootstrapNetwork
  | advertiseRendezvous
  | connectPeers
  | initConn
  | initGroupMgr
  | createPubQueueDb
  | initPublishQueueWatcher
  | loadAllGroupsStep
  | startSyncAllGroupsStep
  | createAppDb
  | saveLocalSeeds
  | startAPIServer
deriving DecidableEq

/-- Embedded from mainRet in src/internal/pkg/handlers/backup.go: the order in
which the non-bootstrap startup path performs its steps. -/
def mainRetStartupSequence : List StartupStep :=
  [StartupStep.createDb, StartupStep.newNode, StartupStep.bootstrapNetwork,
   StartupStep.advertiseRendezvous, StartupStep.connectPeers, StartupStep.initConn,
   StartupStep.initGroupMgr, StartupStep.createPubQueueDb,
   StartupStep.initPublishQueueWatcher, StartupStep.loadAllGroupsStep,
   StartupStep.startSyncAllGroupsStep, StartupStep.createAppDb,
   StartupStep.saveLocalSeeds, StartupStep.startAPIServer]

/-! ## Model of the PublishQueue and the auto-acknowledge flag

Modelled from the spec: the PublishQueue implementation is not among the given
sources; the entry life cycle below is written from spec §3 and §4.4.  The
`chain.SetAutoAck(config.AutoAck)` call at process startup is embedded from
main in src/internal/pkg/handlers/backup.go. -/

inductive EntryStatus
  | pending
  | sent
  | acked
  | failed
deriving DecidableEq

structure PubQueueEntry where
  entryId : Nat
  groupId : Nat
  payload : Nat
  status : EntryStatus
  attempts : Nat
deriving DecidableEq

structure ProcessConfig where
  autoAck : Bool
deriving DecidableEq

structure ProcessState where
  autoAck : Bool
  queue : List PubQueueEntry
deriving DecidableEq

/-- Embedded from main in src/internal/pkg/handlers/backup.go:
chain.SetAutoAck(config.AutoAck) installs the process-wide flag. -/
def setAutoAck (st : ProcessState) (b : Bool) : ProcessState :=
  { st with autoAck := b }

/-- Embedded from main in src/internal/pkg/handlers/backup.go: at startup the
auto-acknowledge flag is set from the parsed configuration, before any queue
activity. -/
def processStart (cfg : ProcessConfig) : ProcessState :=
  setAutoAck ⟨false, []⟩ cfg.autoAck

/-- Modelled from the spec: §4.4 dispatch of one entry — a PENDING entry is
marked SENT on successful dispatch and, if auto-acknowledge mode is
configured, immediately becomes ACKED; a failed dispatch is retried (attempt
count grows). -/
def dispatchEntry (autoAck : Bool) (dispatchOk : Bool) (e : PubQueueEntry) : PubQueueEntry :=
  if e.status = EntryStatus.pending then
    if dispatchOk then
      let sentEntry := { e with status := EntryStatus.sent, attempts := e.attempts + 1 }
      if autoAck then { sentEntry with status := EntryStatus.acked } else sentEntry
    else { e with attempts := e.attempts + 1 }
  else e

/-- Modelled from the spec: §4.4 non-auto-acknowledge path — a SENT entry
becomes ACKED when its payload is observed in a committed block. -/
def ackOnCommit (payload : Nat) (e : PubQueueEntry) : PubQueueEntry :=
  if e.status = EntryStatus.sent ∧ e.payload = payload then
    { e with status := EntryStatus.acked }
  else e

inductive ProcessOp
  | enqueue (gid payload : Nat)
  | dispatch (dispatchOk : Bool)
  | observeCommit (payload : Nat)
deriving DecidableEq

/-- Modelled from the spec: the queue-related operations the process performs
after startup; none of them touches the auto-acknowledge flag. -/
def runOp (st : ProcessState) (op : ProcessOp) : ProcessState :=
  match op with
  | ProcessOp.enqueue gid p =>
    { st with queue := st.queue ++ [⟨st.queue.length, gid, p, EntryStatus.pending, 0⟩] }
  | ProcessOp.dispatch ok =>
    { st with queue := st.queue.map (dispatchEntry st.autoAck ok) }
  | ProcessOp.observeCommit p =>
    { st with queue := st.queue.map (ackOnCommit p) }

def runOps (st : ProcessState) (ops : List ProcessOp) : ProcessState :=
  ops.foldl runOp st

/-! ## Embedding of GetKeystorePassword
from src/internal/pkg/handlers/backup.go -/

inductive KsErr
  | promptFailed
deriving DecidableEq

def rumKspasswdEnvVar : String := "RUM_KSPASSWD"

/-- Embedded from GetKeystorePassword in src/internal/pkg/handlers/backup.go:
reads the RUM_KSPASSWD environment variable (`env`, with the Go convention
that an unset variable reads as the empty string); a non-empty value is
returned with a nil error, otherwise the interactive passphrase prompt
(`promptForUnlock`, an external port whose outcome is passed in) decides the
result. -/
def getKeystorePassword (env : String → String) (promptForUnlock : Except KsErr String) :
    Except KsErr String :=
  let password := env rumKspasswdEnvVar
  if password ≠ "" then Except.ok password
  else promptForUnlock

/-! ## Embedding of saveLocalSeedsToAppdata
from src/internal/pkg/handlers/backup.go -/

inductive DbErr
  | dbFault
deriving DecidableEq

/-- The app database: stored seeds keyed by group id, plus the sets of group
ids on which GetGroupSeed and SetGroupSeed fail (the external badger store's
failure behaviour, passed in as data). -/
structure AppDb where
  seeds : List (Nat × Nat)
  getFailures : List Nat
  setFailures : List Nat
deriving DecidableEq

/-- One file of the seeds directory as saveLocalSeedsToAppdata observes it:
whether it is a directory, whether ioutil.ReadFile succeeds, whether
json.Unmarshal succeeds, and the decoded seed's group id and content. -/
structure SeedFile where
  isDir : Bool
  readOk : Bool
  unmarshalOk : Bool
  groupId : Nat
  payload : Nat
deriving DecidableEq

def getGroupSeed (db : AppDb) (gid : Nat) : Except DbErr (Option Nat) :=
  if db.getFailures.contains gid then Except.error DbErr.dbFault
  else Except.ok (db.seeds.lookup gid)

def setGroupSeed (db : AppDb) (gid : Nat) (s : Nat) : Except DbErr AppDb :=
  if db.setFailures.contains gid then Except.error DbErr.dbFault
  else Except.ok { db with seeds := (gid, s) :: db.seeds }

/-- Embedded from the loop body of saveLocalSeedsToAppdata in
src/internal/pkg/handlers/backup.go: directories are skipped; a read,
unmarshal or GetGroupSeed failure logs and continues; an already-stored seed
is skipped; otherwise the seed is saved (a save failure also just
continues). -/
def processSeedFile (db : AppDb) (f : SeedFile) : AppDb :=
  if f.isDir then db
  else if !f.readOk then db
  else if !f.unmarshalOk then db
  else
    match getGroupSeed db f.groupId with
    | Except.error _ => db
    | Except.ok (some _) => db
    | Except.ok none =>
      match setGroupSeed db f.groupId f.payload with
      | Except.error _ => db
      | Except.ok db2 => db2

/-- Embedded from saveLocalSeedsToAppdata in
src/internal/pkg/handlers/backup.go: nothing happens unless the seeds
directory exists; a ReadDir failure logs and leaves the file list empty;
otherwise every file of the directory is processed in order. -/
def saveLocalSeedsToAppdata (db : AppDb) (seedDirExists readDirOk : Bool)
    (files : List SeedFile) : AppDb :=
  if seedDirExists then
    (if readDirOk then files else []).foldl processSeedFile db
  else db

/-! ## Theorems -/

/-- C4 counterexample: the claim that no operation of the consensus component
can set a role to a value disagreeing with the pure function of
(local identity, current producer set) is false on the embedded `Consensus`
interface.  Concretely, for local identity 5 and producer set [1, 2, 3] the
derived producer role is `false`, yet `SetProducer` (an operation of the
component) installs `true`, which the getter then returns. -/
theorem C4_role_mutation_counterexample :
    derivedIsProducer 5 [1, 2, 3] = false ∧
    ((Consensus.SetProducer ⟨"group", derivedIsProducer 5 [1, 2, 3], true⟩ true
        : Consensus Bool Bool).Producer = true) :=
  ⟨rfl, rfl⟩

/-- C4 (amended): role state in the consensus component is held in mutable
fields with plain getter/setter semantics — Producer()/User() return exactly
the last value installed by SetProducer/SetUser, each setter leaves the other
role unchanged, and agreement with the derived pure role function holds
exactly when the caller re-evaluates the role by installing the derived
value. -/
theorem C4_roles_setter_semantics (c : Consensus Bool Bool) (p u : Bool)
    (lid : Nat) (ps : List Nat) :
    (c.SetProducer p).Producer = p ∧
    (c.SetProducer p).User = c.User ∧
    (c.SetUser u).User = u ∧
    (c.SetUser u).Producer = c.Producer ∧
    (c.SetProducer (derivedIsProducer lid ps)).Producer = derivedIsProducer lid ps :=
  ⟨rfl, rfl, rfl, rfl, rfl⟩

/-- C9: GetKeystorePassword returns the RUM_KSPASSWD environment value with a
nil error whenever it is non-empty, and falls back to the interactive
passphrase prompt exactly when it is empty. -/
theorem C9_getKeystorePassword_env (env : String → String) (pr : Except KsErr String) :
    (env rumKspasswdEnvVar ≠ "" →
      getKeystorePassword env pr = Except.ok (env rumKspasswdEnvVar)) ∧
    (env rumKspasswdEnvVar = "" → getKeystorePassword env pr = pr) := by
  unfold getKeystorePassword
  constructor
  · intro h
    simp [h]
  · intro h
    simp [h]

/-- Witness for C9 at concrete environments. -/
theorem C9_getKeystorePassword_env_witness :
    getKeystorePassword (fun _ => "secret") (Except.error KsErr.promptFailed)
        = Except.ok "secret" ∧
    getKeystorePassword (fun _ => "") (Except.ok "typed") = Except.ok "typed" :=
  ⟨(C9_getKeystorePassword_env (fun _ => "secret") (Except.error KsErr.promptFailed)).1
      (by decide),
   (C9_getKeystorePassword_env (fun _ => "") (Except.ok "typed")).2 rfl⟩

/-- C3: a malformed message, a message from a sender outside the current
producer set, or a message whose signature does not verify makes HandleHBMsg
return an error value (not a process abort); the message is dropped (not
buffered, not dispatched) and the engine state — in particular the
ConsensusRound — is left unchanged by the call. -/
theorem C3_handleHBMsg_rejects_invalid (st : PSyncerState) (m : HBMsgv1)
    (h : m.wellFormed = false ∨ st.producers.contains m.senderId = false ∨
      m.sigValid = false) :
    handleHBMsg st m = (st, HBResult.rejected ConsensusErr.validationFault) := by
  have hv : verifyHBMsg st.producers m = false := by
    unfold verifyHBMsg
    rcases h with h | h | h <;> rw [h] <;> simp
  unfold handleHBMsg
  simp [hv]

/-- Witness for C3: a vote from sender 2, which is not in the producer set
[0, 1], is rejected with the state unchanged. -/
theorem C3_handleHBMsg_rejects_invalid_witness :
    handleHBMsg ⟨[0, 1], [], ⟨0, RoundPhase.idle, none, []⟩, []⟩
        ⟨9, 2, 0, MsgPhase.vote, 0, 0, true, true⟩
      = (⟨[0, 1], [], ⟨0, RoundPhase.idle, none, []⟩, []⟩,
         HBResult.rejected ConsensusErr.validationFault) :=
  C3_handleHBMsg_rejects_invalid _ _ (by decide)

theorem runOp_autoAck (st : ProcessState) (op : ProcessOp) :
    (runOp st op).autoAck = st.autoAck := by
  cases op <;> rfl

theorem runOps_autoAck (ops : List ProcessOp) (st : ProcessState) :
    (runOps st ops).autoAck = st.autoAck := by
  induction ops generalizing st with
  | nil => rfl
  | cons op rest ih =>
    have h : runOps st (op :: rest) = runOps (runOp st op) rest := rfl
    rw [h, ih, runOp_autoAck]

/-- C6: the auto-acknowledge mode is a boolean fixed at startup — no queue
operation after `processStart` changes it — and a PENDING entry dispatched
successfully while auto-acknowledge is configured immediately becomes ACKED,
whereas without auto-acknowledge the same dispatch leaves it SENT (awaiting
commit observation): the ACKED status does not wait for the payload to appear
in a committed block. -/
theorem C6_autoAck_semantics (cfg : ProcessConfig) (ops : List ProcessOp)
    (e : PubQueueEntry) (he : e.status = EntryStatus.pending) :
    (runOps (processStart cfg) ops).autoAck = cfg.autoAck ∧
    (dispatchEntry true true e).status = EntryStatus.acked ∧
    (dispatchEntry false true e).status = EntryStatus.sent := by
  refine ⟨?_, ?_, ?_⟩
  · rw [runOps_autoAck]
    rfl
  · unfold dispatchEntry
    simp [he]
  · unfold dispatchEntry
    simp [he]

/-- Witness for C6 at a concrete configuration and entry. -/
theorem C6_autoAck_semantics_witness :
    (runOps (processStart ⟨true⟩) [ProcessOp.dispatch true]).autoAck = true ∧
    (dispatchEntry true true ⟨0, 1, 7, EntryStatus.pending, 0⟩).status
        = EntryStatus.acked ∧
    (dispatchEntry false true ⟨0, 1, 7, EntryStatus.pending, 0⟩).status
        = EntryStatus.sent :=
  C6_autoAck_semantics ⟨true⟩ [ProcessOp.dispatch true]
    ⟨0, 1, 7, EntryStatus.pending, 0⟩ rfl

/-- C5 counterexample: the claim that only unrecoverable Storage Port
initialisation failures at startup terminate the process is false on the
embedded mainRet: with every storage initialisation healthy (peerstore db,
chain db, stats db, publish-queue db, readable group metadata, app db) and
groups loadable, a keystore initialisation failure — keystore is an external
port distinct from the Storage Port — still terminates the process. -/
theorem C5_process_fatal_counterexample :
    mainRetStartup
        ⟨true, false, true, true, true, true, true, true, true, some [], true, true⟩
      = none ∧
    (⟨true, false, true, true, true, true, true, true, true, some [], true, true⟩
        : StartupEnv).peerstoreDbOk = true ∧
    (⟨true, false, true, true, true, true, true, true, true, some [], true, true⟩
        : StartupEnv).dbOk = true ∧
    (⟨true, false, true, true, true, true, true, true, true, some [], true, true⟩
        : StartupEnv).statsDbOk = true ∧
    (⟨true, false, true, true, true, true, true, true, true, some [], true, true⟩
        : StartupEnv).pubQueueDbOk = true ∧
    (⟨true, false, true, true, true, true, true, true, true, some [], true, true⟩
        : StartupEnv).metadata = some [] ∧
    (⟨true, false, true, true, true, true, true, true, true, some [], true, true⟩
        : StartupEnv).appDbOk = true := by
  refine ⟨?_, rfl, rfl, rfl, rfl, rfl, rfl⟩
  rfl

/-- C5 (amended): no single group's fault is process-fatal — a corrupt group's
metadata is skipped by loadAllGroups without affecting the other groups, and
loadAllGroups fails, then only with a StorageFault, exactly when the metadata
cannot be read at all.  The embedded mainRet startup terminates the process
exactly when one of its checked startup steps fails; these include the storage
initialisations but also non-storage steps (node options, keystore, peer keys,
peer info, connection manager, start-sync), so Storage Port initialisation
failures are not the only process-fatal startup conditions.  With every
checked step healthy the startup completes even when individual groups are
corrupt. -/
theorem C5_fault_isolation (env : StartupEnv) (metas : List GroupMeta) (g : GroupMeta) :
    (g.corrupt = true → loadAllGroups (some (g :: metas)) = loadAllGroups (some metas)) ∧
    (∀ e, loadAllGroups env.metadata = Except.error e →
      env.metadata = none ∧ e = MgrErr.storageFault) ∧
    (mainRetStartup env = none →
      env.nodeOptionsOk = false ∨ env.keystoreOk = false ∨ env.peerKeysOk = false ∨
        env.peerInfoOk = false ∨ env.peerstoreDbOk = false ∨ env.dbOk = false ∨
        env.connMgrOk = false ∨ env.statsDbOk = false ∨ env.pubQueueDbOk = false ∨
        env.metadata = none ∨ env.startSyncOk = false ∨ env.appDbOk = false) ∧
    (env.nodeOptionsOk = true → env.keystoreOk = true → env.peerKeysOk = true →
      env.peerInfoOk = true → env.peerstoreDbOk = true → env.dbOk = true →
      env.connMgrOk = true → env.statsDbOk = true → env.pubQueueDbOk = true →
      env.startSyncOk = true → env.appDbOk = true →
      env.metadata = some metas → mainRetStartup env ≠ none) := by
  have hd : ∀ metas2 : List GroupMeta, env.nodeOptionsOk = true →
      env.keystoreOk = true → env.peerKeysOk = true → env.peerInfoOk = true →
      env.peerstoreDbOk = true → env.dbOk = true → env.connMgrOk = true →
      env.statsDbOk = true → env.pubQueueDbOk = true → env.startSyncOk = true →
      env.appDbOk = true → env.metadata = some metas2 →
      mainRetStartup env ≠ none := by
    intro metas2 h1 h2 h3 h4 h5 h6 h7 h8 h9 h10 h11 h12
    unfold mainRetStartup
    rw [h1, h2, h3, h4, h5, h6, h7, h8, h9, h12]
    unfold loadAllGroups
    simp [h10, h11]
  refine ⟨?_, ?_, ?_, ?_⟩
  · intro h
    unfold loadAllGroups
    simp [List.filter_cons, h]
  · intro e he
    rcases hme : env.metadata with _ | metas2
    · rw [hme] at he
      unfold loadAllGroups at he
      cases e
      exact ⟨rfl, rfl⟩
    · rw [hme] at he
      unfold loadAllGroups at he
      simp at he
  · intro h
    rcases hmd : env.metadata with _ | metas2
    · exact Or.inr (Or.inr (Or.inr (Or.inr (Or.inr (Or.inr (Or.inr (Or.inr (Or.inr (Or.inl rfl)))))))))
    ·
      cases hn1 : env.nodeOptionsOk with
      | false => exact Or.inl rfl
      | true =>
      cases hn2 : env.keystoreOk with
      | false => exact Or.inr (Or.inl rfl)
      | true =>
      cases hn3 : env.peerKeysOk with
      | false => exact Or.inr (Or.inr (Or.inl rfl))
      | true =>
      cases hn4 : env.peerInfoOk with
      | false => exact Or.inr (Or.inr (Or.inr (Or.inl rfl)))
      | true =>
      cases hn5 : env.peerstoreDbOk with
      | false => exact Or.inr (Or.inr (Or.inr (Or.inr (Or.inl rfl))))
      | true =>
      cases hn6 : env.dbOk with
      | false => exact Or.inr (Or.inr (Or.inr (Or.inr (Or.inr (Or.inl rfl)))))
      | true =>
      cases hn7 : env.connMgrOk with
      | false => exact Or.inr (Or.inr (Or.inr (Or.inr (Or.inr (Or.inr (Or.inl rfl))))))
      | true =>
      cases hn8 : env.statsDbOk with
      | false => exact Or.inr (Or.inr (Or.inr (Or.inr (Or.inr (Or.inr (Or.inr (Or.inl rfl)))))))
      | true =>
      cases hn9 : env.pubQueueDbOk with
      | false => exact Or.inr (Or.inr (Or.inr (Or.inr (Or.inr (Or.inr (Or.inr (Or.inr (Or.inl rfl))))))))
      | true =>
      cases hn10 : env.startSyncOk with
      | false => exact Or.inr (Or.inr (Or.inr (Or.inr (Or.inr (Or.inr (Or.inr (Or.inr (Or.inr (Or.inr (Or.inl rfl))))))))))
      | true =>
      cases hn11 : env.appDbOk with
      | false => exact Or.inr (Or.inr (Or.inr (Or.inr (Or.inr (Or.inr (Or.inr (Or.inr (Or.inr (Or.inr (Or.inr (rfl)))))))))))
      | true =>
        exact absurd h (hd metas2 hn1 hn2 hn3 hn4 hn5 hn6 hn7 hn8 hn9 hn10 hn11 hmd)
  · intro h1 h2 h3 h4 h5 h6 h7 h8 h9 h10 h11 h12
    exact hd metas h1 h2 h3 h4 h5 h6 h7 h8 h9 h10 h11 h12

/-- Witness for C5: a corrupt group (id 0) is skipped while the healthy group
(id 1) is kept, and startup with every checked step healthy does not
terminate even though a corrupt group is present. -/
theorem C5_fault_isolation_witness :
    loadAllGroups (some [⟨0, 0, true⟩, ⟨1, 5, false⟩])
        = loadAllGroups (some [⟨1, 5, false⟩]) ∧
    mainRetStartup
        ⟨true, true, true, true, true, true, true, true, true,
         some [⟨0, 0, true⟩, ⟨1, 5, false⟩], true, true⟩ ≠ none :=
  ⟨(C5_fault_isolation
      ⟨true, true, true, true, true, true, true, true, true, none, true, true⟩
      [⟨1, 5, false⟩] ⟨0, 0, true⟩).1 rfl,
   (C5_fault_isolation
      ⟨true, true, true, true, true, true, true, true, true,
       some [⟨0, 0, true⟩, ⟨1, 5, false⟩], true, true⟩
      [⟨0, 0, true⟩, ⟨1, 5, false⟩] ⟨0, 0, true⟩).2.2.2
     rfl rfl rfl rfl rfl rfl rfl rfl rfl rfl rfl rfl⟩

/-- C7: stopping all groups and then tearing them down leaves every byte of
persisted state — in particular each group's persisted highest height —
unchanged; teardown releases all in-memory manager state; and stopping
discards the in-flight round of every running group (no partial commit) and
marks it stopped. -/
theorem C7_teardown_preserves_persisted (n : NodeState) :
    (nodeTeardownAllGroups (nodeStopSyncAllGroups n)).storage = n.storage ∧
    (∀ gid, persistedHeight (nodeTeardownAllGroups (nodeStopSyncAllGroups n)) gid
        = persistedHeight n gid) ∧
    (nodeStopSyncAllGroups n).storage = n.storage ∧
    (nodeTeardownAllGroups (nodeStopSyncAllGroups n)).mgr.groups = [] ∧
    (n.mgr.groups.all (fun e => e.started) = true →
      (nodeStopSyncAllGroups n).mgr.groups.all
        (fun e => e.round.isNone && !e.started) = true) := by
  refine ⟨rfl, fun gid => rfl, rfl, rfl, ?_⟩
  intro h
  have hmem := List.all_eq_true.mp h
  apply List.all_eq_true.mpr
  intro e he
  have : (nodeStopSyncAllGroups n).mgr.groups = n.mgr.groups.map stopGroupEntry := rfl
  rw [this] at he
  obtain ⟨e0, he0, rfl⟩ := List.mem_map.mp he
  have hs := hmem e0 he0
  simp only [decide_eq_true_eq] at hs
  unfold stopGroupEntry
  simp [hs]

/-- Witness for C7 at a concrete node with one running group holding an
in-flight round. -/
theorem C7_teardown_preserves_persisted_witness :
    (nodeTeardownAllGroups (nodeStopSyncAllGroups
        ⟨[(1, [10, 11])],
         ⟨[⟨⟨1, 2, false⟩, true, some ⟨2, RoundPhase.voting, some 5, [0]⟩⟩]⟩⟩)).storage
      = [(1, [10, 11])] ∧
    (nodeStopSyncAllGroups
        ⟨[(1, [10, 11])],
         ⟨[⟨⟨1, 2, false⟩, true, some ⟨2, RoundPhase.voting, some 5, [0]⟩⟩]⟩⟩).mgr.groups.all
        (fun e => e.round.isNone && !e.started) = true :=
  ⟨(C7_teardown_preserves_persisted
      ⟨[(1, [10, 11])],
       ⟨[⟨⟨1, 2, false⟩, true, some ⟨2, RoundPhase.voting, some 5, [0]⟩⟩]⟩⟩).1,
   (C7_teardown_preserves_persisted
      ⟨[(1, [10, 11])],
       ⟨[⟨⟨1, 2, false⟩, true, some ⟨2, RoundPhase.voting, some 5, [0]⟩⟩]⟩⟩).2.2.2.2
     (by decide)⟩

theorem startGroupEntry_idem (e : GroupEntry) :
    startGroupEntry (startGroupEntry e) = startGroupEntry e := by
  cases h : e.started <;> simp [startGroupEntry, h]

theorem stopGroupEntry_idem (e : GroupEntry) :
    stopGroupEntry (stopGroupEntry e) = stopGroupEntry e := by
  cases h : e.started <;> simp [stopGroupEntry, h]

/-- C8: in the embedded mainRet startup sequence, loading all groups strictly
precedes starting their sync loops; loadAllGroups constructs exactly one (not
yet started, hence network-inactive) entry per non-corrupt group; and starting
or stopping all groups is idempotent, with an already-started group untouched
by start and an already-stopped group untouched by stop. -/
theorem C8_startup_ordering (metas : List GroupMeta) (mgr : GroupMgr) (e : GroupEntry) :
    mainRetStartupSequence.indexOf StartupStep.loadAllGroupsStep
        < mainRetStartupSequence.indexOf StartupStep.startSyncAllGroupsStep ∧
    (∀ m2, loadAllGroups (some metas) = Except.ok m2 →
      m2.groups.length = (metas.filter (fun g => !g.corrupt)).length ∧
      m2.groups.all (fun en => !en.started) = true) ∧
    mgrStartSyncAllGroups (mgrStartSyncAllGroups mgr) = mgrStartSyncAllGroups mgr ∧
    mgrStopSyncAllGroups (mgrStopSyncAllGroups mgr) = mgrStopSyncAllGroups mgr ∧
    (e.started = true → startGroupEntry e = e) ∧
    (e.started = false → stopGroupEntry e = e) := by
  refine ⟨by decide, ?_, ?_, ?_, ?_, ?_⟩
  · intro m2 hm
    unfold loadAllGroups at hm
    simp at hm
    subst hm
    refine ⟨by simp, ?_⟩
    apply List.all_eq_true.mpr
    intro en hen
    obtain ⟨g, hg, rfl⟩ := List.mem_map.mp hen
    rfl
  · unfold mgrStartSyncAllGroups
    simp [List.map_map, Function.comp, startGroupEntry_idem]
  · unfold mgrStopSyncAllGroups
    simp [List.map_map, Function.comp, stopGroupEntry_idem]
  · intro h
    unfold startGroupEntry
    simp [h]
  · intro h
    unfold stopGroupEntry
    simp [h]

/-- Witness for C8: the load of one healthy and one corrupt group yields one
unstarted entry, and start/stop are no-ops on already started/stopped
entries. -/
theorem C8_startup_ordering_witness :
    ((⟨[⟨⟨1, 0, false⟩, false, none⟩]⟩ : GroupMgr).groups.length
        = (([⟨1, 0, false⟩, ⟨2, 3, true⟩] : List GroupMeta).filter
            (fun g => !g.corrupt)).length ∧
      (⟨[⟨⟨1, 0, false⟩, false, none⟩]⟩ : GroupMgr).groups.all
        (fun en => !en.started) = true) ∧
    startGroupEntry ⟨⟨7, 0, false⟩, true, none⟩ = ⟨⟨7, 0, false⟩, true, none⟩ ∧
    stopGroupEntry ⟨⟨7, 0, false⟩, false, none⟩ = ⟨⟨7, 0, false⟩, false, none⟩ :=
  ⟨(C8_startup_ordering [⟨1, 0, false⟩, ⟨2, 3, true⟩] ⟨[]⟩
      ⟨⟨7, 0, false⟩, true, none⟩).2.1 ⟨[⟨⟨1, 0, false⟩, false, none⟩]⟩ rfl,
   (C8_startup_ordering [] ⟨[]⟩ ⟨⟨7, 0, false⟩, true, none⟩).2.2.2.2.1 rfl,
   (C8_startup_ordering [] ⟨[]⟩ ⟨⟨7, 0, false⟩, false, none⟩).2.2.2.2.2 rfl⟩

theorem processSeedFile_cases (db : AppDb) (f : SeedFile) :
    processSeedFile db f = db ∨
    processSeedFile db f = { db with seeds := (f.groupId, f.payload) :: db.seeds } := by
  unfold processSeedFile
  split_ifs with h1 h2 h3
  · exact Or.inl rfl
  · exact Or.inl rfl
  · exact Or.inl rfl
  · unfold getGroupSeed
    split_ifs with h4
    · exact Or.inl rfl
    · rcases hl : db.seeds.lookup f.groupId with _ | s
      · unfold setGroupSeed
        split_ifs with h5
        · exact Or.inl rfl
        · exact Or.inr rfl
      · exact Or.inl rfl

theorem processSeedFile_eq_of_isSome (db : AppDb) (f : SeedFile)
    (h : (db.seeds.lookup f.groupId).isSome = true) : processSeedFile db f = db := by
  obtain ⟨s, hs⟩ := Option.isSome_iff_exists.mp h
  unfold processSeedFile
  split_ifs with h1 h2 h3
  · rfl
  · rfl
  · rfl
  · unfold getGroupSeed
    split_ifs with h4
    · rfl
    · rw [hs]

theorem processSeedFile_getFailures (db : AppDb) (f : SeedFile) :
    (processSeedFile db f).getFailures = db.getFailures := by
  rcases processSeedFile_cases db f with h | h <;> rw [h]

theorem processSeedFile_setFailures (db : AppDb) (f : SeedFile) :
    (processSeedFile db f).setFailures = db.setFailures := by
  rcases processSeedFile_cases db f with h | h <;> rw [h]

theorem foldl_processSeedFile_getFailures (fs : List SeedFile) (db : AppDb) :
    (fs.foldl processSeedFile db).getFailures = db.getFailures := by
  induction fs generalizing db with
  | nil => rfl
  | cons f rest ih =>
    have h : (f :: rest).foldl processSeedFile db
        = rest.foldl processSeedFile (processSeedFile db f) := rfl
    rw [h, ih, processSeedFile_getFailures]

theorem foldl_processSeedFile_setFailures (fs : List SeedFile) (db : AppDb) :
    (fs.foldl processSeedFile db).setFailures = db.setFailures := by
  induction fs generalizing db with
  | nil => rfl
  | cons f rest ih =>
    have h : (f :: rest).foldl processSeedFile db
        = rest.foldl processSeedFile (processSeedFile db f) := rfl
    rw [h, ih, processSeedFile_setFailures]

theorem lookup_isSome_processSeedFile (db : AppDb) (f : SeedFile) (gid : Nat)
    (h : (db.seeds.lookup gid).isSome = true) :
    ((processSeedFile db f).seeds.lookup gid).isSome = true := by
  rcases processSeedFile_cases db f with hc | hc
  · rw [hc]
    exact h
  · rw [hc]
    simp only [List.lookup]
    cases hg : gid == f.groupId
    · simpa using h
    · rfl

theorem lookup_isSome_foldl (fs : List SeedFile) (db : AppDb) (gid : Nat)
    (h : (db.seeds.lookup gid).isSome = true) :
    ((fs.foldl processSeedFile db).seeds.lookup gid).isSome = true := by
  induction fs generalizing db with
  | nil => exact h
  | cons f rest ih => exact ih _ (lookup_isSome_processSeedFile db f gid h)

theorem lookup_isSome_after_process_self (db : AppDb) (f : SeedFile)
    (hd : f.isDir = false) (hr : f.readOk = true) (hu : f.unmarshalOk = true)
    (hg : db.getFailures.contains f.groupId = false)
    (hs : db.setFailures.contains f.groupId = false) :
    ((processSeedFile db f).seeds.lookup f.groupId).isSome = true := by
  rcases hl : db.seeds.lookup f.groupId with _ | s
  · unfold processSeedFile getGroupSeed setGroupSeed
    rw [hd, hr, hu, hg, hl, hs]
    simp [List.lookup]
  · have heq := processSeedFile_eq_of_isSome db f (by rw [hl]; rfl)
    rw [heq, hl]
    rfl

theorem lookup_isSome_foldl_mem (fs : List SeedFile) (db : AppDb) (f : SeedFile)
    (hf : f ∈ fs)
    (hd : f.isDir = false) (hr : f.readOk = true) (hu : f.unmarshalOk = true)
    (hg : db.getFailures.contains f.groupId = false)
    (hs : db.setFailures.contains f.groupId = false) :
    ((fs.foldl processSeedFile db).seeds.lookup f.groupId).isSome = true := by
  induction fs generalizing db with
  | nil => cases hf
  | cons g rest ih =>
    have hfold : (g :: rest).foldl processSeedFile db
        = rest.foldl processSeedFile (processSeedFile db g) := rfl
    rw [hfold]
    rcases List.mem_cons.mp hf with rfl | hmem
    · exact lookup_isSome_foldl rest _ _
        (lookup_isSome_after_process_self db f hd hr hu hg hs)
    · have hg2 : (processSeedFile db g).getFailures.contains f.groupId = false := by
        rw [processSeedFile_getFailures]
        exact hg
      have hs2 : (processSeedFile db g).setFailures.contains f.groupId = false := by
        rw [processSeedFile_setFailures]
        exact hs
      exact ih _ hmem hg2 hs2

theorem processSeedFile_eq_of_isDir (db : AppDb) (f : SeedFile)
    (hd : f.isDir = true) : processSeedFile db f = db := by
  unfold processSeedFile
  rw [hd]
  simp

theorem processSeedFile_eq_of_failure (db : AppDb) (f : SeedFile)
    (h : f.readOk = false ∨ f.unmarshalOk = false ∨
      db.getFailures.contains f.groupId = true ∨
      db.setFailures.contains f.groupId = true) :
    processSeedFile db f = db := by
  rcases h with h | h | h | h
  · unfold processSeedFile
    rw [h]
    simp
  · unfold processSeedFile
    rw [h]
    simp
  · unfold processSeedFile getGroupSeed
    rw [h]
    simp
  · cases hlk : (db.seeds.lookup f.groupId).isSome with
    | true => exact processSeedFile_eq_of_isSome db f hlk
    | false =>
      have hln : db.seeds.lookup f.groupId = none := by
        rcases hcase : db.seeds.lookup f.groupId with _ | s
        · rfl
        · rw [hcase] at hlk
          cases hlk
      cases hg : db.getFailures.contains f.groupId with
      | true =>
        unfold processSeedFile getGroupSeed
        rw [hg]
        simp
      | false =>
        unfold processSeedFile getGroupSeed setGroupSeed
        rw [hg, hln, h]
        simp

theorem processSeedFile_foldl_fixpoint (fs : List SeedFile) (db : AppDb)
    (f : SeedFile) (hf : f ∈ fs) :
    processSeedFile (fs.foldl processSeedFile db) f = fs.foldl processSeedFile db := by
  cases hd : f.isDir with
  | true => exact processSeedFile_eq_of_isDir _ f hd
  | false =>
  cases hr : f.readOk with
  | false => exact processSeedFile_eq_of_failure _ f (Or.inl hr)
  | true =>
  cases hu : f.unmarshalOk with
  | false => exact processSeedFile_eq_of_failure _ f (Or.inr (Or.inl hu))
  | true =>
  cases hg : (fs.foldl processSeedFile db).getFailures.contains f.groupId with
  | true => exact processSeedFile_eq_of_failure _ f (Or.inr (Or.inr (Or.inl hg)))
  | false =>
  cases hlk : ((fs.foldl processSeedFile db).seeds.lookup f.groupId).isSome with
  | true => exact processSeedFile_eq_of_isSome _ f hlk
  | false =>
  cases hs : (fs.foldl processSeedFile db).setFailures.contains f.groupId with
  | true => exact processSeedFile_eq_of_failure _ f (Or.inr (Or.inr (Or.inr hs)))
  | false =>
    exfalso
    have hg0 : db.getFailures.contains f.groupId = false := by
      rw [foldl_processSeedFile_getFailures] at hg
      exact hg
    have hs0 : db.setFailures.contains f.groupId = false := by
      rw [foldl_processSeedFile_setFailures] at hs
      exact hs
    have hsome := lookup_isSome_foldl_mem fs db f hf hd hr hu hg0 hs0
    rw [hsome] at hlk
    cases hlk

theorem foldl_fixpoint_of_all (fs : List SeedFile) (D : AppDb)
    (h : ∀ f ∈ fs, processSeedFile D f = D) : fs.foldl processSeedFile D = D := by
  induction fs with
  | nil => rfl
  | cons g rest ih =>
    have hfold : (g :: rest).foldl processSeedFile D
        = rest.foldl processSeedFile (processSeedFile D g) := rfl
    rw [hfold, h g (List.mem_cons_self g rest)]
    exact ih (fun f hf => h f (List.mem_cons_of_mem g hf))

theorem saveLocalSeeds_foldl_idem (fs : List SeedFile) (db : AppDb) :
    fs.foldl processSeedFile (fs.foldl processSeedFile db)
      = fs.foldl processSeedFile db :=
  foldl_fixpoint_of_all fs _ (fun f hf => processSeedFile_foldl_fixpoint fs db f hf)

/-- C10: saveLocalSeedsToAppdata is idempotent and fault-isolated per seed
file — a file whose group id already has a stored seed leaves the database
unchanged (skipped); a read, unmarshal, lookup or save failure on one file
makes it a no-op, so the remaining files are processed exactly as if it were
absent; and running the whole pass twice equals running it once. -/
theorem C10_saveLocalSeeds_idempotent (db : AppDb) (f : SeedFile)
    (rest files : List SeedFile) (de rd : Bool) :
    ((db.seeds.lookup f.groupId).isSome = true → processSeedFile db f = db) ∧
    (f.readOk = false ∨ f.unmarshalOk = false ∨
        db.getFailures.contains f.groupId = true ∨
        db.setFailures.contains f.groupId = true →
      saveLocalSeedsToAppdata db true true (f :: rest)
        = saveLocalSeedsToAppdata db true true rest) ∧
    saveLocalSeedsToAppdata (saveLocalSeedsToAppdata db de rd files) de rd files
      = saveLocalSeedsToAppdata db de rd files := by
  refine ⟨processSeedFile_eq_of_isSome db f, ?_, ?_⟩
  · intro h
    have h2 : saveLocalSeedsToAppdata db true true (f :: rest)
        = rest.foldl processSeedFile (processSeedFile db f) := rfl
    have h3 : saveLocalSeedsToAppdata db true true rest
        = rest.foldl processSeedFile db := rfl
    rw [h2, h3, processSeedFile_eq_of_failure db f h]
  · cases de with
    | false => rfl
    | true =>
      cases rd with
      | false => rfl
      | true => exact saveLocalSeeds_foldl_idem files db

/-- Witness for C10: a file whose group id 1 is already stored is skipped, and
a file whose read fails does not prevent the next file from being saved. -/
theorem C10_saveLocalSeeds_idempotent_witness :
    processSeedFile ⟨[(1, 10)], [], []⟩ ⟨false, true, true, 1, 99⟩
        = ⟨[(1, 10)], [], []⟩ ∧
    saveLocalSeedsToAppdata ⟨[], [], []⟩ true true
        [⟨false, false, true, 2, 5⟩, ⟨false, true, true, 3, 6⟩]
      = saveLocalSeedsToAppdata ⟨[], [], []⟩ true true [⟨false, true, true, 3, 6⟩] :=
  ⟨(C10_saveLocalSeeds_idempotent ⟨[(1, 10)], [], []⟩ ⟨false, true, true, 1, 99⟩
      [] [] true true).1 (by decide),
   (C10_saveLocalSeeds_idempotent ⟨[], [], []⟩ ⟨false, false, true, 2, 5⟩
      [⟨false, true, true, 3, 6⟩] [] true true).2.1 (by decide)⟩

theorem handleHBMsg_not_verified (st : PSyncerState) (m : HBMsgv1)
    (h : verifyHBMsg st.producers m = false) :
    handleHBMsg st m = (st, HBResult.rejected ConsensusErr.validationFault) := by
  unfold handleHBMsg
  rw [h]
  simp

theorem handleHBMsg_past (st : PSyncerState) (m : HBMsgv1)
    (hv : verifyHBMsg st.producers m = true) (h : m.height < st.round.height) :
    handleHBMsg st m = (st, HBResult.ignored) := by
  unfold handleHBMsg
  rw [hv]
  simp [h]

theorem handleHBMsg_future (st : PSyncerState) (m : HBMsgv1)
    (hv : verifyHBMsg st.producers m = true) (h : st.round.height < m.height) :
    handleHBMsg st m = (bufferMsg st m, HBResult.buffered) := by
  unfold handleHBMsg
  rw [hv]
  simp [h, Nat.lt_asymm h]

theorem handleHBMsg_current (st : PSyncerState) (m : HBMsgv1)
    (hv : verifyHBMsg st.producers m = true) (h : m.height = st.round.height) :
    handleHBMsg st m =
      match m.phase with
      | MsgPhase.propose => handlePropose st m
      | MsgPhase.vote => handleVote st m
      | MsgPhase.commitNotify => (st, HBResult.ignored)
      | MsgPhase.timeoutNotify =>
        ({ st with round := { st.round with phase := RoundPhase.recovering } },
          HBResult.accepted) := by
  unfold handleHBMsg
  rw [hv]
  simp [h]

theorem handleHBMsg_current_vote (st : PSyncerState) (m : HBMsgv1)
    (hv : verifyHBMsg st.producers m = true) (h : m.height = st.round.height)
    (hp : m.phase = MsgPhase.vote) : handleHBMsg st m = handleVote st m := by
  rw [handleHBMsg_current st m hv h, hp]

theorem handleHBMsg_current_propose (st : PSyncerState) (m : HBMsgv1)
    (hv : verifyHBMsg st.producers m = true) (h : m.height = st.round.height)
    (hp : m.phase = MsgPhase.propose) : handleHBMsg st m = handlePropose st m := by
  rw [handleHBMsg_current st m hv h, hp]

theorem handleVote_inactive (st : PSyncerState) (m : HBMsgv1)
    (h : ¬(st.round.phase = RoundPhase.proposing ∨ st.round.phase = RoundPhase.voting)) :
    handleVote st m = (st, HBResult.ignored) := by
  unfold handleVote
  rw [if_neg h]

theorem handleVote_commit (st : PSyncerState) (m : HBMsgv1) (b : Nat)
    (hph : st.round.phase = RoundPhase.proposing ∨ st.round.phase = RoundPhase.voting)
    (hq : quorumReached st.producers (addVote st.round.votes m.senderId) = true)
    (hb : st.round.proposal = some b) :
    handleVote st m =
      ({ st with chain := st.chain ++ [b],
                 round := ⟨st.round.height + 1, RoundPhase.idle, none, []⟩ },
        HBResult.accepted) := by
  unfold handleVote
  rw [if_pos hph, hq, hb]
  rfl

theorem handleVote_accum (st : PSyncerState) (m : HBMsgv1)
    (hph : st.round.phase = RoundPhase.proposing ∨ st.round.phase = RoundPhase.voting)
    (hcase : st.round.proposal = none ∨
      quorumReached st.producers (addVote st.round.votes m.senderId) = false) :
    handleVote st m =
      ({ st with round := { st.round with votes := addVote st.round.votes m.senderId } },
        HBResult.accepted) := by
  unfold handleVote
  rw [if_pos hph]
  rcases hcase with hb | hq
  · rw [hb]
    cases hq2 : quorumReached st.producers (addVote st.round.votes m.senderId) <;>
      simp [hq2]
  · rw [hq]
    simp

theorem addVote_self_mem (votes : List Nat) (s : Nat) : s ∈ addVote votes s := by
  unfold addVote
  split_ifs with h
  · exact h
  · simp

theorem addVote_idem (votes : List Nat) (s : Nat) :
    addVote (addVote votes s) s = addVote votes s := by
  by_cases h : s ∈ votes
  · simp [addVote, h]
  · simp [addVote, h]

theorem bufferMsg_idem (st : PSyncerState) (m : HBMsgv1) :
    bufferMsg (bufferMsg st m) m = bufferMsg st m := by
  by_cases h : m ∈ st.buffered
  · simp [bufferMsg, h]
  · simp [bufferMsg, h]

theorem bufferMsg_producers (st : PSyncerState) (m : HBMsgv1) :
    (bufferMsg st m).producers = st.producers := by
  unfold bufferMsg
  split_ifs <;> rfl

theorem bufferMsg_round (st : PSyncerState) (m : HBMsgv1) :
    (bufferMsg st m).round = st.round := by
  unfold bufferMsg
  split_ifs <;> rfl

theorem handle_second_vote_noop (st2 : PSyncerState) (m : HBMsgv1)
    (hv : verifyHBMsg st2.producers m = true)
    (heq : m.height = st2.round.height)
    (hp : m.phase = MsgPhase.vote)
    (hph : st2.round.phase = RoundPhase.proposing ∨ st2.round.phase = RoundPhase.voting)
    (hmem : m.senderId ∈ st2.round.votes)
    (hcase : st2.round.proposal = none ∨
      quorumReached st2.producers st2.round.votes = false) :
    (handleHBMsg st2 m).1 = st2 := by
  have haddeq : addVote st2.round.votes m.senderId = st2.round.votes := by
    unfold addVote
    rw [if_pos hmem]
  have hcase2 : st2.round.proposal = none ∨
      quorumReached st2.producers (addVote st2.round.votes m.senderId) = false := by
    rcases hcase with h | h
    · exact Or.inl h
    · rw [haddeq]
      exact Or.inr h
  rw [handleHBMsg_current_vote st2 m hv heq hp, handleVote_accum st2 m hph hcase2,
    haddeq]

/-- C2: vote accumulation is idempotent — processing the identical VOTE
message a second time leaves the engine state, and in particular the round's
vote set (keyed by sender identity) and hence the accumulated vote count,
unchanged. -/
theorem C2_vote_idempotent (st : PSyncerState) (m : HBMsgv1)
    (hp : m.phase = MsgPhase.vote) :
    (handleHBMsg (handleHBMsg st m).1 m).1 = (handleHBMsg st m).1 ∧
    (handleHBMsg (handleHBMsg st m).1 m).1.round.votes
      = (handleHBMsg st m).1.round.votes := by
  have main : (handleHBMsg (handleHBMsg st m).1 m).1 = (handleHBMsg st m).1 := by
    cases hv : verifyHBMsg st.producers m with
    | false => simp only [handleHBMsg_not_verified st m hv]
    | true =>
      rcases Nat.lt_trichotomy m.height st.round.height with hlt | heq | hgt
      · simp only [handleHBMsg_past st m hv hlt]
      · rw [handleHBMsg_current_vote st m hv heq hp]
        by_cases hph : st.round.phase = RoundPhase.proposing ∨
            st.round.phase = RoundPhase.voting
        · cases hq : quorumReached st.producers (addVote st.round.votes m.senderId) with
          | true =>
            rcases hprop : st.round.proposal with _ | b
            · rw [handleVote_accum st m hph (Or.inl hprop)]
              exact handle_second_vote_noop
                { st with round :=
                    { st.round with votes := addVote st.round.votes m.senderId } }
                m hv heq hp hph (addVote_self_mem st.round.votes m.senderId)
                (Or.inl hprop)
            · rw [handleVote_commit st m b hph hq hprop]
              have hvC : verifyHBMsg
                  ({ st with chain := st.chain ++ [b],
                             round := ⟨st.round.height + 1, RoundPhase.idle,
                                       none, []⟩ }
                    : PSyncerState).producers m = true := hv
              have hltC : m.height <
                  ({ st with chain := st.chain ++ [b],
                             round := ⟨st.round.height + 1, RoundPhase.idle,
                                       none, []⟩ }
                    : PSyncerState).round.height := by
                show m.height < st.round.height + 1
                rw [heq]
                exact Nat.lt_succ_self _
              rw [handleHBMsg_past _ m hvC hltC]
          | false =>
            rw [handleVote_accum st m hph (Or.inr hq)]
            exact handle_second_vote_noop
              { st with round :=
                  { st.round with votes := addVote st.round.votes m.senderId } }
              m hv heq hp hph (addVote_self_mem st.round.votes m.senderId)
              (Or.inr hq)
        · rw [handleVote_inactive st m hph]
          show (handleHBMsg st m).1 = st
          rw [handleHBMsg_current_vote st m hv heq hp, handleVote_inactive st m hph]
      · rw [handleHBMsg_future st m hv hgt]
        show (handleHBMsg (bufferMsg st m) m).1 = bufferMsg st m
        have hv2 : verifyHBMsg (bufferMsg st m).producers m = true := by
          rw [bufferMsg_producers]
          exact hv
        have hgt2 : (bufferMsg st m).round.height < m.height := by
          rw [bufferMsg_round]
          exact hgt
        rw [handleHBMsg_future _ m hv2 hgt2]
        show bufferMsg (bufferMsg st m) m = bufferMsg st m
        exact bufferMsg_idem st m
  exact ⟨main, by rw [main]⟩

/-- Witness for C2: replaying one VOTE from sender 1 in a voting round leaves
the state (and the vote set) unchanged. -/
theorem C2_vote_idempotent_witness :
    (handleHBMsg (handleHBMsg ⟨[0, 1, 2], [], ⟨0, RoundPhase.voting, some 42, [0]⟩, []⟩
          ⟨5, 1, 0, MsgPhase.vote, 0, 0, true, true⟩).1
        ⟨5, 1, 0, MsgPhase.vote, 0, 0, true, true⟩).1
      = (handleHBMsg ⟨[0, 1, 2], [], ⟨0, RoundPhase.voting, some 42, [0]⟩, []⟩
          ⟨5, 1, 0, MsgPhase.vote, 0, 0, true, true⟩).1 ∧
    (handleHBMsg (handleHBMsg ⟨[0, 1, 2], [], ⟨0, RoundPhase.voting, some 42, [0]⟩, []⟩
          ⟨5, 1, 0, MsgPhase.vote, 0, 0, true, true⟩).1
        ⟨5, 1, 0, MsgPhase.vote, 0, 0, true, true⟩).1.round.votes
      = (handleHBMsg ⟨[0, 1, 2], [], ⟨0, RoundPhase.voting, some 42, [0]⟩, []⟩
          ⟨5, 1, 0, MsgPhase.vote, 0, 0, true, true⟩).1.round.votes :=
  C2_vote_idempotent ⟨[0, 1, 2], [], ⟨0, RoundPhase.voting, some 42, [0]⟩, []⟩
    ⟨5, 1, 0, MsgPhase.vote, 0, 0, true, true⟩ rfl

theorem handlePropose_chain (st : PSyncerState) (m : HBMsgv1) :
    (handlePropose st m).1.chain = st.chain := by
  unfold handlePropose
  split_ifs <;> rfl

theorem handleVote_chain (st : PSyncerState) (m : HBMsgv1) :
    (handleVote st m).1.chain = st.chain ∨
    ∃ b, st.round.proposal = some b ∧ (handleVote st m).1.chain = st.chain ++ [b] := by
  unfold handleVote
  split_ifs with h1 h2
  · rcases hb : st.round.proposal with _ | b
    · left
      rfl
    · right
      exact ⟨b, rfl, rfl⟩
  · left
    rfl
  · left
    rfl

theorem handleHBMsg_chain_cases (st : PSyncerState) (m : HBMsgv1) :
    (handleHBMsg st m).1.chain = st.chain ∨
    (m.phase = MsgPhase.vote ∧ ∃ b, st.round.proposal = some b ∧
      (handleHBMsg st m).1.chain = st.chain ++ [b]) := by
  cases hv : verifyHBMsg st.producers m with
  | false =>
    left
    rw [handleHBMsg_not_verified st m hv]
  | true =>
    rcases Nat.lt_trichotomy m.height st.round.height with hlt | heq | hgt
    · left
      rw [handleHBMsg_past st m hv hlt]
    · cases hph : m.phase with
      | propose =>
        left
        rw [handleHBMsg_current_propose st m hv heq hph]
        exact handlePropose_chain st m
      | vote =>
        rw [handleHBMsg_current_vote st m hv heq hph]
        rcases handleVote_chain st m with h | ⟨b, hb, h⟩
        · left
          exact h
        · right
          exact ⟨rfl, b, hb, h⟩
      | commitNotify =>
        left
        rw [handleHBMsg_current st m hv heq, hph]
      | timeoutNotify =>
        left
        rw [handleHBMsg_current st m hv heq, hph]
    · left
      rw [handleHBMsg_future st m hv hgt]
      show (bufferMsg st m).chain = st.chain
      unfold bufferMsg
      split_ifs <;> rfl

theorem propose_accept_eligible (st : PSyncerState) (m : HBMsgv1)
    (hm : m.phase = MsgPhase.propose)
    (hacc : (handleHBMsg st m).2 = HBResult.accepted) :
    eligibleProposer st.producers st.round.height = some m.senderId ∧
      m.height = st.round.height := by
  cases hv : verifyHBMsg st.producers m with
  | false =>
    rw [handleHBMsg_not_verified st m hv] at hacc
    simp at hacc
  | true =>
    rcases Nat.lt_trichotomy m.height st.round.height with hlt | heq | hgt
    · rw [handleHBMsg_past st m hv hlt] at hacc
      simp at hacc
    · rw [handleHBMsg_current_propose st m hv heq hm] at hacc
      unfold handlePropose at hacc
      split_ifs at hacc with he hcond
      exact ⟨heq ▸ he, heq⟩
    · rw [handleHBMsg_future st m hv hgt] at hacc
      simp at hacc

/-- C1: per-height commit safety.  Two distinct PROPOSE claimants for the same
round are never both accepted, and an accepted PROPOSE comes from the
deterministically-eligible proposer for the round's height; the committed
height is monotonically non-decreasing under message handling, already
committed blocks are never rewritten, and the committed height changes only
via the quorum-commit (COMMIT) transition of a VOTE, which advances it by
exactly one. -/
theorem C1_commit_safety (st : PSyncerState) (m m1 m2 : HBMsgv1)
    (h1 : m1.phase = MsgPhase.propose) (h2 : m2.phase = MsgPhase.propose)
    (hs : m1.senderId ≠ m2.senderId) :
    ¬((handleHBMsg st m1).2 = HBResult.accepted ∧
      (handleHBMsg st m2).2 = HBResult.accepted) ∧
    ((handleHBMsg st m1).2 = HBResult.accepted →
      eligibleProposer st.producers st.round.height = some m1.senderId) ∧
    committedHeight st ≤ committedHeight (handleHBMsg st m).1 ∧
    (handleHBMsg st m).1.chain.take (committedHeight st) = st.chain ∧
    (committedHeight (handleHBMsg st m).1 ≠ committedHeight st →
      m.phase = MsgPhase.vote ∧
        committedHeight (handleHBMsg st m).1 = committedHeight st + 1) := by
  refine ⟨?_, ?_, ?_, ?_, ?_⟩
  · rintro ⟨ha1, ha2⟩
    obtain ⟨e1, _⟩ := propose_accept_eligible st m1 h1 ha1
    obtain ⟨e2, _⟩ := propose_accept_eligible st m2 h2 ha2
    rw [e1] at e2
    exact hs (Option.some.inj e2)
  · intro ha
    exact (propose_accept_eligible st m1 h1 ha).1
  · unfold committedHeight
    rcases handleHBMsg_chain_cases st m with h | ⟨_, b, _, h⟩
    · simp [h]
    · simp [h]
  · unfold committedHeight
    rcases handleHBMsg_chain_cases st m with h | ⟨_, b, _, h⟩
    · rw [h]
      simp
    · rw [h]
      simp
  · intro hne
    rcases handleHBMsg_chain_cases st m with h | ⟨hph, b, _, h⟩
    · exact absurd (by unfold committedHeight; rw [h]) hne
    · refine ⟨hph, ?_⟩
      unfold committedHeight
      rw [h]
      simp

/-- Witness for C1: in a three-producer group at height 0, the PROPOSE from
the eligible proposer (sender 0) and a conflicting PROPOSE from sender 1 are
never both accepted, the eligible proposer is sender 0, and handling a VOTE
keeps the committed height monotone and append-only. -/
theorem C1_commit_safety_witness :
    ¬((handleHBMsg ⟨[0, 1, 2], [], ⟨0, RoundPhase.idle, none, []⟩, []⟩
          ⟨5, 0, 0, MsgPhase.propose, 42, 7, true, true⟩).2 = HBResult.accepted ∧
      (handleHBMsg ⟨[0, 1, 2], [], ⟨0, RoundPhase.idle, none, []⟩, []⟩
          ⟨5, 1, 0, MsgPhase.propose, 43, 7, true, true⟩).2 = HBResult.accepted) ∧
    ((handleHBMsg ⟨[0, 1, 2], [], ⟨0, RoundPhase.idle, none, []⟩, []⟩
          ⟨5, 0, 0, MsgPhase.propose, 42, 7, true, true⟩).2 = HBResult.accepted →
      eligibleProposer [0, 1, 2] 0 = some 0) ∧
    committedHeight ⟨[0, 1, 2], [], ⟨0, RoundPhase.idle, none, []⟩, []⟩
      ≤ committedHeight (handleHBMsg ⟨[0, 1, 2], [], ⟨0, RoundPhase.idle, none, []⟩, []⟩
          ⟨5, 1, 0, MsgPhase.vote, 0, 0, true, true⟩).1 ∧
    (handleHBMsg ⟨[0, 1, 2], [], ⟨0, RoundPhase.idle, none, []⟩, []⟩
        ⟨5, 1, 0, MsgPhase.vote, 0, 0, true, true⟩).1.chain.take
        (committedHeight ⟨[0, 1, 2], [], ⟨0, RoundPhase.idle, none, []⟩, []⟩) = [] ∧
    (committedHeight (handleHBMsg ⟨[0, 1, 2], [], ⟨0, RoundPhase.idle, none, []⟩, []⟩
          ⟨5, 1, 0, MsgPhase.vote, 0, 0, true, true⟩).1
        ≠ committedHeight ⟨[0, 1, 2], [], ⟨0, RoundPhase.idle, none, []⟩, []⟩ →
      (⟨5, 1, 0, MsgPhase.vote, 0, 0, true, true⟩ : HBMsgv1).phase = MsgPhase.vote ∧
        committedHeight (handleHBMsg ⟨[0, 1, 2], [], ⟨0, RoundPhase.idle, none, []⟩, []⟩
            ⟨5, 1, 0, MsgPhase.vote, 0, 0, true, true⟩).1
          = committedHeight ⟨[0, 1, 2], [], ⟨0, RoundPhase.idle, none, []⟩, []⟩ + 1) :=
  C1_commit_safety ⟨[0, 1, 2], [], ⟨0, RoundPhase.idle, none, []⟩, []⟩
    ⟨5, 1, 0, MsgPhase.vote, 0, 0, true, true⟩
    ⟨5, 0, 0, MsgPhase.propose, 42, 7, true, true⟩
    ⟨5, 1, 0, MsgPhase.propose, 43, 7, true, true⟩ rfl rfl (by decide)

end Quorum
